import Mathlib

/-!
Verification of the SteamLibraryScrape aggregation pipeline
(`steam_family_agg` package, together with the library fetcher kept in
`steam_family_agg_old/steam_fetch.py`, which the pipeline imports).

Python floats are embedded as rationals (`ℚ`); every statement proved here
stays away from IEEE tie/overflow corner cases, so the rational model agrees
with the float computation on all inputs appearing in the theorems.
Network I/O is embedded by passing each upstream response as an explicit
argument (an `Except`-valued oracle); the request that a code path issues is
recorded as an explicit `NetEvent` so that claims about which requests happen,
and whether they pass through the host throttle, can be stated.
-/

namespace SteamAgg

/-- Two-decimal rounding, embedding Python `round(x, 2)`.  Python rounds
half-to-even on binary floats; no statement in this file evaluates `round2`
at a tie, so half-up rounding on `ℚ` is an exact model of every use. -/
def round2 (v : ℚ) : ℚ := (Rat.floor (v * 100 + 1/2) : ℚ) / 100

/-- Embeds `utils.mb_gb`: `round(value / 1024.0, 2)`. -/
def mb_gb (value : ℚ) : ℚ := round2 (value / 1024)

/-- Embeds `utils.tb_gb`: `round(value * 1024.0, 2)`. -/
def tb_gb (value : ℚ) : ℚ := round2 (value * 1024)

/-- Python `\s` whitespace class (ASCII part, which is all the scraped
sources contain). -/
def isSpaceCh (c : Char) : Bool :=
  c = ' ' || c = '\t' || c = '\n' || c = '\r' || c = '\x0b' || c = '\x0c'

/-- Word character for the regex `\b` boundary: `[A-Za-z0-9_]`. -/
def isWordCh (c : Char) : Bool :=
  (('a' ≤ c && c ≤ 'z') || ('A' ≤ c && c ≤ 'Z') || c.isDigit || c = '_')

/-- Numeric value of a digit run (most significant first). -/
def natOfDigits (ds : List Char) : ℕ :=
  ds.foldl (fun a c => a * 10 + (c.toNat - '0'.toNat)) 0

/-- Rational denoted by an integer digit run and a fraction digit run. -/
def ratOfDigits (intPart fracPart : List Char) : ℚ :=
  (natOfDigits intPart : ℚ) + (natOfDigits fracPart : ℚ) / (10 ^ fracPart.length)

/-- Case-insensitive literal match: consumes `lit` (given lowercase) from the
front of `s`, returning the rest.  Models a literal run inside an
`re.IGNORECASE` pattern. -/
def matchLit : List Char → List Char → Option (List Char)
  | [], s => some s
  | _ :: _, [] => none
  | c :: cs, t :: ts => if t.toLower = c then matchLit cs ts else none

/-- Embeds the regex fragment `[^:]*:` — skip to the first colon and consume
it (the character class cannot cross a colon, so the greedy engine behaves
exactly like this deterministic scan). -/
def uptoColon (s : List Char) : Option (List Char) :=
  match s.dropWhile (fun c => c ≠ ':') with
  | ':' :: rest => some rest
  | _ => none

/-- Embeds `[0-9]+(?:\.[0-9]+)?`: an integer digit run with an optional
fraction (the fraction needs at least one digit, otherwise only the integer
part is consumed, exactly as the regex backtracks). -/
def matchNumber (s : List Char) : Option (ℚ × List Char) :=
  match s.span Char.isDigit with
  | (ds, rest) =>
    if ds.isEmpty then none
    else
      match rest with
      | '.' :: r2 =>
        match r2.span Char.isDigit with
        | (fs, r3) =>
          if fs.isEmpty then some (ratOfDigits ds [], rest)
          else some (ratOfDigits ds fs, r3)
      | _ => some (ratOfDigits ds [], rest)

/-- Size units recognised by `enrich.parse_storage_requirement_gb_from_html`. -/
inductive SizeUnit where
  | TB | GB | GiB | MB
deriving DecidableEq, Repr

/-- Embeds the alternation `(TB|GB|GiB|MB)` under `re.IGNORECASE`, tried in
the regex's left-to-right order. -/
def matchUnit (s : List Char) : Option (SizeUnit × List Char) :=
  match matchLit ['t', 'b'] s with
  | some r => some (.TB, r)
  | none =>
    match matchLit ['g', 'b'] s with
    | some r => some (.GB, r)
    | none =>
      match matchLit ['g', 'i', 'b'] s with
      | some r => some (.GiB, r)
      | none =>
        match matchLit ['m', 'b'] s with
        | some r => some (.MB, r)
        | none => none

/-- Common tail of all three storage patterns:
`\s*([0-9]+(?:\.[0-9]+)?)\s*(TB|GB|GiB|MB)`. -/
def matchSizeTail (s : List Char) : Option (ℚ × SizeUnit × List Char) :=
  match matchNumber (s.dropWhile isSpaceCh) with
  | none => none
  | some (v, s2) =>
    match matchUnit (s2.dropWhile isSpaceCh) with
    | none => none
    | some (u, s3) => some (v, u, s3)

/-- Pattern 1 of the size parser: `Storage[^:]*:` followed by the size tail. -/
def tryStoragePat (s : List Char) : Option (ℚ × SizeUnit × List Char) :=
  match matchLit ['s', 't', 'o', 'r', 'a', 'g', 'e'] s with
  | none => none
  | some r =>
    match uptoColon r with
    | none => none
    | some r2 => matchSizeTail r2

/-- Pattern 2: `(?:Disk|Hard)\s*Space[^:]*:` followed by the size tail. -/
def tryDiskPat (s : List Char) : Option (ℚ × SizeUnit × List Char) :=
  let afterWord :=
    match matchLit ['d', 'i', 's', 'k'] s with
    | some r => some r
    | none => matchLit ['h', 'a', 'r', 'd'] s
  match afterWord with
  | none => none
  | some r =>
    match matchLit ['s', 'p', 'a', 'c', 'e'] (r.dropWhile isSpaceCh) with
    | none => none
    | some r2 =>
      match uptoColon r2 with
      | none => none
      | some r3 => matchSizeTail r3

/-- Pattern 3: `free\s+space[^:]*:` followed by the size tail. -/
def tryFreePat (s : List Char) : Option (ℚ × SizeUnit × List Char) :=
  match matchLit ['f', 'r', 'e', 'e'] s with
  | none => none
  | some r =>
    match r with
    | c :: cs =>
      if isSpaceCh c then
        match matchLit ['s', 'p', 'a', 'c', 'e'] (cs.dropWhile isSpaceCh) with
        | none => none
        | some r2 =>
          match uptoColon r2 with
          | none => none
          | some r3 => matchSizeTail r3
      else none
    | [] => none

/-- `re.findall` driver: try the pattern at each position, collecting matches
and resuming after each one.  Every successful match consumes at least one
character, so fuel equal to the text length covers the whole scan. -/
def scanAux (pat : List Char → Option (ℚ × SizeUnit × List Char)) :
    ℕ → List Char → List (ℚ × SizeUnit)
  | 0, _ => []
  | _ + 1, [] => []
  | fuel + 1, c :: cs =>
    match pat (c :: cs) with
    | some (v, u, rest) => (v, u) :: scanAux pat fuel rest
    | none => scanAux pat fuel cs

/-- All matches of one storage pattern in `text`. -/
def findallSizes (pat : List Char → Option (ℚ × SizeUnit × List Char))
    (text : List Char) : List (ℚ × SizeUnit) :=
  scanAux pat text.length text

/-- Embeds `utils.strip_html`: `re.sub("<[^>]+>", " ", html or "")` — each
tag (at least one non-`>` character between the brackets) becomes one
space. -/
def stripHtmlAux : ℕ → List Char → List Char
  | 0, s => s
  | _ + 1, [] => []
  | fuel + 1, c :: cs =>
    if c = '<' then
      match cs.span (fun d => d ≠ '>') with
      | (mid, '>' :: rest) =>
        if mid.isEmpty then c :: stripHtmlAux fuel cs
        else ' ' :: stripHtmlAux fuel rest
      | _ => c :: stripHtmlAux fuel cs
    else c :: stripHtmlAux fuel cs

/-- `utils.strip_html` on strings. -/
def strip_html (html : String) : String :=
  String.mk (stripHtmlAux html.data.length html.data)

/-- Per-match unit normalisation of the size parser: MB divided by 1024,
TB multiplied by 1024, GB/GiB rounded as-is (`round(v, 2)`). -/
def convertSize : ℚ × SizeUnit → ℚ
  | (v, .MB) => mb_gb v
  | (v, .GB) => round2 v
  | (v, .GiB) => round2 v
  | (v, .TB) => tb_gb v

/-- All normalised size values found in `html` by
`enrich.parse_storage_requirement_gb_from_html` (the `vals` list of the
source, in the source's pattern order). -/
def storageVals (html : String) : List ℚ :=
  let text := (strip_html html).data
  ((findallSizes tryStoragePat text) ++ (findallSizes tryDiskPat text) ++
    (findallSizes tryFreePat text)).map convertSize

/-- Embeds `enrich.parse_storage_requirement_gb_from_html`: the maximum of
all parsed values, or `None` when no phrase matched. -/
def parse_storage_requirement_gb_from_html (html : String) : Option ℚ :=
  (storageVals html).max?

/-! Regex-hint machinery for `enrich.py`.  The keyword patterns of the
enrichment module are sequences of case-insensitive literal words joined by
`\s+`/`\s*`, optionally guarded by `\b` word boundaries; one pattern also
contains a `.*` gap (which cannot cross a newline since `re.DOTALL` is not
set there).  Each such pattern is embedded as a list of `RPiece` tokens; the
only flexible tokens are the whitespace runs, and each is followed by a
letter literal, so maximal munch is exactly the regex's backtracking
behaviour. -/

/-- One token of an embedded keyword pattern. -/
inductive RPiece where
  | word : List Char → RPiece
  | ws1 : RPiece
  | ws0 : RPiece
  | bdry : RPiece

/-- Is the head of `s` a word character (end of string counts as non-word)? -/
def isWordHead : List Char → Bool
  | [] => false
  | c :: _ => isWordCh c

/-- Is the previous character a word character (start of string counts as
non-word)? -/
def isWordPrev : Option Char → Bool
  | none => false
  | some c => isWordCh c

/-- Deterministic matcher for a keyword pattern at the current position;
`prev` is the character just before the position (for `\b`).  Returns the
rest of the text after the match. -/
def pmatchD : List RPiece → Option Char → List Char → Option (List Char)
  | [], _, s => some s
  | .bdry :: ps, prev, s =>
    if isWordPrev prev ≠ isWordHead s then pmatchD ps prev s else none
  | .word w :: ps, prev, s =>
    match matchLit w s with
    | some r => pmatchD ps (w.getLast?.orElse (fun _ => prev)) r
    | none => none
  | .ws1 :: ps, _, s =>
    match s with
    | c :: cs => if isSpaceCh c then pmatchD ps (some ' ') (cs.dropWhile isSpaceCh) else none
    | [] => none
  | .ws0 :: ps, prev, s =>
    match s with
    | c :: cs =>
      if isSpaceCh c then pmatchD ps (some ' ') (cs.dropWhile isSpaceCh)
      else pmatchD ps prev (c :: cs)
    | [] => pmatchD ps prev []

/-- `re.search` for one keyword pattern: try the pattern at every position. -/
def searchR (ps : List RPiece) : Option Char → List Char → Bool
  | prev, s =>
    (pmatchD ps prev s).isSome ||
      match s with
      | c :: cs => searchR ps (some c) cs
      | [] => false

/-- Search for a pattern starting at any position of the current line (used
for the `.*` gap of the third delisted alternative: `.` does not match a
newline, so the continuation may start anywhere before the next `\n`). -/
def tryWithinLine (ps : List RPiece) : Option Char → List Char → Bool
  | prev, s =>
    (pmatchD ps prev s).isSome ||
      match s with
      | c :: cs => if c ≠ '\n' then tryWithinLine ps (some c) cs else false
      | [] => false

/-- `re.search` for a pattern of the shape `prefixPat.*suffixPat` (no
`re.DOTALL`). -/
def searchThenWithin (pre suf : List RPiece) : Option Char → List Char → Bool
  | prev, s =>
    (match pmatchD pre prev s with
     | some rest => tryWithinLine suf (some 'r') rest
     | none => false) ||
      match s with
      | c :: cs => searchThenWithin pre suf (some c) cs
      | [] => false

/-- Helper: a lowercase literal word piece. -/
def wordP (w : String) : RPiece := .word w.data

/-- Embeds `_TYPE_DLC_HINTS`:
`(Downloadable\s+Content|Requires\s+the\s+base\s+game|DLC\b)`, IGNORECASE. -/
def dlcHints (html : List Char) : Bool :=
  searchR [wordP "downloadable", .ws1, wordP "content"] none html ||
    searchR [wordP "requires", .ws1, wordP "the", .ws1, wordP "base", .ws1,
      wordP "game"] none html ||
    searchR [wordP "dlc", .bdry] none html

/-- Embeds `_TYPE_SOFTWARE_HINTS`: `\bSoftware\b`, IGNORECASE. -/
def softwareHints (html : List Char) : Bool :=
  searchR [.bdry, wordP "software", .bdry] none html

/-- Embeds `_TYPE_TOOL_HINTS`: `\bTool\b`, IGNORECASE. -/
def toolHints (html : List Char) : Bool :=
  searchR [.bdry, wordP "tool", .bdry] none html

/-- Embeds `_TYPE_VIDEO_HINTS`: `\bVideo\b|\bMovie\b`, IGNORECASE. -/
def videoHints (html : List Char) : Bool :=
  searchR [.bdry, wordP "video", .bdry] none html ||
    searchR [.bdry, wordP "movie", .bdry] none html

/-- Embeds `_DELISTED_HINTS` (four alternatives, IGNORECASE, no DOTALL). -/
def delistedHints (html : List Char) : Bool :=
  searchR [wordP "is", .ws1, wordP "no", .ws1, wordP "longer", .ws1,
    wordP "available", .ws1, wordP "on", .ws1, wordP "the", .ws1,
    wordP "steam", .ws1, wordP "store"] none html ||
  searchR [wordP "no", .ws1, wordP "longer", .ws1, wordP "available", .ws1,
    wordP "for", .ws1, wordP "purchase"] none html ||
  searchThenWithin
    [wordP "at", .ws1, wordP "the", .ws1, wordP "request", .ws1, wordP "of",
      .ws1, wordP "the", .ws1, wordP "publisher"]
    [wordP "no", .ws1, wordP "longer", .ws1, wordP "available"] none html ||
  searchR [wordP "this", .ws1, wordP "item", .ws1, wordP "is", .ws1,
    wordP "currently", .ws1, wordP "unavailable", .ws1, wordP "on", .ws1,
    wordP "steam"] none html

/-- Embeds `enrich._type_from_html`: conservative keyword heuristics with
`"game"` as the default once the page has loaded. -/
def type_from_html (html : String) : String :=
  if dlcHints html.data then "dlc"
  else if softwareHints html.data then "software"
  else if toolHints html.data then "tool"
  else if videoHints html.data then "video"
  else "game"

/-- First four-consecutive-digit window of a character list
(`re.search(r"(\d{4})", s)`): earliest position wins. -/
def firstYearScan : List Char → Option ℕ
  | [] => none
  | c :: cs =>
    match cs with
    | c2 :: c3 :: c4 :: _ =>
      if c.isDigit && c2.isDigit && c3.isDigit && c4.isDigit then
        some (natOfDigits [c, c2, c3, c4])
      else firstYearScan cs
    | _ => none

/-- Embeds `enrich._extract_year`: `None` for a missing or empty string,
otherwise the first four-digit window, kept only inside `[1970, 2100]`. -/
def extract_year (dateStr : Option String) : Option ℕ :=
  match dateStr with
  | none => none
  | some s =>
    if s = "" then none
    else
      match firstYearScan s.data with
      | none => none
      | some y => if 1970 ≤ y ∧ y ≤ 2100 then some y else none

/-- Case-insensitive check that `lit` occurs somewhere in `s`. -/
def litOccurs (lit : List Char) : List Char → Bool
  | [] => (matchLit lit []).isSome
  | c :: cs => (matchLit lit (c :: cs)).isSome || litOccurs lit cs

/-- Index (0-based) of the first case-insensitive occurrence of `lit`. -/
def findLitIdx (lit : List Char) : List Char → Option ℕ
  | [] => if (matchLit lit ([] : List Char)).isSome then some 0 else none
  | c :: cs =>
    if (matchLit lit (c :: cs)).isSome then some 0
    else (findLitIdx lit cs).map (· + 1)

/-- Match an opening `<div ...>` tag whose attribute region (the run of
non-`>` characters after `<div`) contains the given literal; returns the
text after the closing `>` of the tag.  Embeds the fragment
`<div[^>]*LIT[^>]*>`: whichever occurrence the greedy engine picks, the tag
always closes at the first `>`, so the continuation is unique. -/
def tagOpenFrom (lit : List Char) (s : List Char) : Option (List Char) :=
  match matchLit ['<', 'd', 'i', 'v'] s with
  | none => none
  | some r =>
    let run := r.takeWhile (fun c => c ≠ '>')
    if litOccurs lit run ∧ r.length > run.length then
      some (r.drop (run.length + 1))
    else none

/-- Leftmost `<div ...LIT...>` tag in the text; returns the text after it. -/
def tagOpenScan (lit : List Char) : List Char → Option (List Char)
  | [] => tagOpenFrom lit []
  | c :: cs =>
    match tagOpenFrom lit (c :: cs) with
    | some r => some r
    | none => tagOpenScan lit cs

/-- Embeds `enrich._RELEASE_BLOCK` applied by `re.search` and the extraction
of its capture group: find the first `release_date` div, then (lazily) the
first following `date` div, then capture the non-empty run up to the next
`<` (leading whitespace belongs to the preceding `\s*`).  The engine's
backtracking refinements inside malformed HTML only affect which junk string
is captured, never whether the still-missing release year is overwritten,
which is all the theorems below use. -/
def releaseBlockDate (html : String) : Option String :=
  match tagOpenScan ['c', 'l', 'a', 's', 's', '=', '"', 'r', 'e', 'l', 'e',
      'a', 's', 'e', '_', 'd', 'a', 't', 'e', '"'] html.data with
  | none => none
  | some afterFirst =>
    match tagOpenScan ['c', 'l', 'a', 's', 's', '=', '"', 'd', 'a', 't',
        'e', '"'] afterFirst with
    | none => none
    | some afterDate =>
      let grp := afterDate.takeWhile (fun c => c ≠ '<')
      if grp.isEmpty ∨ afterDate.length = grp.length then none
      else some (String.mk (grp.dropWhile isSpaceCh))

/-- The optional-backslash quoted id attribute of the sys-req section regex:
`id=\\?"game_area_sys_req\\?"`. -/
def sysReqIdLit (s : List Char) : Option (List Char) :=
  match matchLit ['i', 'd', '='] s with
  | none => none
  | some r =>
    let r1 := match r with
      | '\\' :: t => t
      | t => t
    match matchLit ['"', 'g', 'a', 'm', 'e', '_', 'a', 'r', 'e', 'a', '_',
        's', 'y', 's', '_', 'r', 'e', 'q'] r1 with
    | none => none
    | some r2 =>
      let r3 := match r2 with
        | '\\' :: t => t
        | t => t
      matchLit ['"'] r3

/-- Does `sysReqIdLit` match at some strictly positive offset of `run` (the
`[^>]+` gap before it needs at least one character)? -/
def sysReqIdAt : List Char → Bool
  | [] => false
  | _ :: cs => (sysReqIdLit cs).isSome || sysReqIdAt cs

/-- Try the sys-req section pattern at the current position.  Embeds
`(<div[^>]+id=\\?"game_area_sys_req\\?".*?</div>)` (DOTALL): the id literal
must sit inside the attribute run of a `<div` tag, and the capture extends
to the first following `</div>`.  All occurrences of the id literal lie in
the same `>`-free run, so the end of the capture does not depend on which
occurrence the greedy engine picks. -/
def sysReqFrom (s : List Char) : Option (List Char) :=
  match matchLit ['<', 'd', 'i', 'v'] s with
  | none => none
  | some r =>
    let run := r.takeWhile (fun c => c ≠ '>')
    if sysReqIdAt run ∧ r.length > run.length then
      let afterTag := r.drop (run.length + 1)
      match findLitIdx ['<', '/', 'd', 'i', 'v', '>'] afterTag with
      | none => none
      | some j =>
        some (['<', 'd', 'i', 'v'] ++ run ++ ['>'] ++ afterTag.take (j + 6))
    else none

/-- Leftmost match of the sys-req section pattern. -/
def sysReqScan : List Char → Option (List Char)
  | [] => sysReqFrom []
  | c :: cs =>
    match sysReqFrom (c :: cs) with
    | some sec => some sec
    | none => sysReqScan cs

/-! Data model for the structured `appdetails` endpoint, the reviews
endpoint, and the metadata resolution of `enrich.fetch_app_meta`.  A failed
request (connection error or `raise_for_status`) or an unparseable JSON body
is an `Except.error`; absent JSON fields are `none`. -/

/-- Embeds Python `str.lower()` (character-wise; the scraped fields are
ASCII). -/
def strLower (s : String) : String := String.mk (s.data.map Char.toLower)

/-- Python `x or y` for an optional string already defaulted to `""`:
the empty string is falsy. -/
def pyStrOrNone (s : String) : Option String :=
  if s = "" then none else some s

/-- Python `x or y` where `x` is an optional float: `None` and `0.0` are
falsy. -/
def pyOrQ (a b : Option ℚ) : Option ℚ :=
  match a with
  | some v => if v = 0 then b else some v
  | none => b

/-- Python `x or default` for an optional string field. -/
def pyStrOr (o : Option String) (d : String) : String :=
  match o with
  | some s => if s = "" then d else s
  | none => d

/-- `release_date` object of the appdetails response. -/
structure ReleaseDate where
  coming_soon : Option Bool
  date : Option String

/-- `pc_requirements` object of the appdetails response (the dict shape;
Steam's empty-list shape is falsy in Python and is modelled by `none`). -/
structure PcReqs where
  minimum : Option String
  recommended : Option String

/-- `data` object of the appdetails response. -/
structure AppData where
  type : Option String
  release_date : Option ReleaseDate
  pc_requirements : Option PcReqs

/-- Per-appid entry of the appdetails response
(`data.get(str(appid), {})`). -/
structure AppDetailsEntry where
  success : Bool
  data : Option AppData

/-- Fields `fetch_app_meta` accumulates before the HTML fallback
(`app_type`, `release_year`, `size_gb` of the source), each still `None`
unless the structured step resolved it. -/
structure MetaPartial where
  app_type : Option String
  release_year : Option ℕ
  size_gb : Option ℚ
deriving Repr

/-- `MetaPartial` plus the `delisted` flag, the local state after the HTML
fallback block. -/
structure MetaState where
  app_type : Option String
  release_year : Option ℕ
  size_gb : Option ℚ
  delisted : Option Bool
deriving Repr

/-- Final dictionary returned by `enrich.fetch_app_meta`. -/
structure MetaDict where
  app_type : Option String
  release_year : Option ℕ
  approx_install_size_gb : Option ℚ
  delisted : Option Bool
deriving Repr

/-- Step 1 of `fetch_app_meta` (the `appdetails` try block, source lines
110–129): on success, the type string is lower-cased with empty mapping to
`None`; the release year is extracted only when not flagged coming-soon; the
size is the first truthy of the parsed `minimum` and `recommended`
requirement blocks. -/
def metaStep1 (resp : Except Unit (Option AppDetailsEntry)) : MetaPartial :=
  match resp with
  | .error _ => ⟨none, none, none⟩
  | .ok o =>
    let entry := o.getD ⟨false, none⟩
    if entry.success then
      let d := entry.data.getD ⟨none, none, none⟩
      let app_type := pyStrOrNone (strLower (d.type.getD ""))
      let rd := d.release_date.getD ⟨none, none⟩
      let release_year :=
        if rd.coming_soon.getD false then none else extract_year rd.date
      let pc := d.pc_requirements.getD ⟨none, none⟩
      let size_gb :=
        pyOrQ (parse_storage_requirement_gb_from_html (pc.minimum.getD ""))
          (parse_storage_requirement_gb_from_html (pc.recommended.getD ""))
      ⟨app_type, release_year, size_gb⟩
    else ⟨none, none, none⟩

/-- Step 2 of `fetch_app_meta` (the store-page fallback block, source lines
131–155): the page is fetched only when some field is still unresolved or
availability is requested, and each fallback assignment is guarded by the
field still being `None`. -/
def htmlFallback (m : MetaPartial) (storeResp : Except Unit String)
    (need_size_fallback check_availability : Bool) : MetaState :=
  if m.app_type.isNone ∨ m.release_year.isNone ∨
      (m.size_gb.isNone ∧ need_size_fallback) ∨ check_availability then
    match storeResp with
    | .error _ => ⟨m.app_type, m.release_year, m.size_gb, none⟩
    | .ok html =>
      let app_type :=
        if m.app_type.isNone then some (type_from_html html) else m.app_type
      let release_year :=
        if m.release_year.isNone then
          match releaseBlockDate html with
          | some grp => extract_year (some grp)
          | none => none
        else m.release_year
      let size_gb :=
        if m.size_gb.isNone ∧ need_size_fallback then
          let sect := (sysReqScan html.data).getD html.data
          parse_storage_requirement_gb_from_html (String.mk sect)
        else m.size_gb
      let delisted := some (delistedHints html.data)
      ⟨app_type, release_year, size_gb, delisted⟩
  else ⟨m.app_type, m.release_year, m.size_gb, none⟩

/-- Final packaging of `fetch_app_meta` (source lines 157–162): the size is
reported only when truthy (`round(size_gb, 2) if size_gb else None`). -/
def packageMeta (s : MetaState) : MetaDict :=
  { app_type := s.app_type
    release_year := s.release_year
    approx_install_size_gb :=
      match s.size_gb with
      | some v => if v = 0 then none else some (round2 v)
      | none => none
    delisted := s.delisted }

/-- Embeds `enrich.fetch_app_meta` as a function of the two upstream
responses. -/
def fetch_app_meta (detailsResp : Except Unit (Option AppDetailsEntry))
    (storeResp : Except Unit String)
    (need_size_fallback check_availability : Bool) : MetaDict :=
  packageMeta
    (htmlFallback (metaStep1 detailsResp) storeResp need_size_fallback
      check_availability)

/-- Modelled from the spec (for the C3 refinement comparison only): the
install size "derived from the larger of the `minimum` and `recommended`
textual requirement blocks".  This is the spec's wording, to be compared
with the source's `parse(mn) or parse(rc)`. -/
def specLargerOfBlocks (mn rc : String) : Option ℚ :=
  match parse_storage_requirement_gb_from_html mn,
      parse_storage_requirement_gb_from_html rc with
  | some a, some b => some (max a b)
  | some a, none => some a
  | none, some b => some b
  | none, none => none

/-- `query_summary` object of the reviews endpoint. -/
structure QuerySummary where
  total_reviews : Option ℤ
  total_positive : Option ℤ
  review_score_desc : Option String

/-- Result dictionary of `enrich.fetch_review_summary`. -/
structure Review where
  review_summary : String
  recent_percent_positive : Option ℚ
deriving Repr, DecidableEq

/-- One try block of `enrich.fetch_review_summary`: `none` when the request
fails or the reported total is not positive (both fall through to the next
source), otherwise the summary dictionary with the rounded percentage. -/
def reviewTry (resp : Except Unit (Option QuerySummary)) (defDesc : String) :
    Option Review :=
  match resp with
  | .error _ => none
  | .ok o =>
    let q := o.getD ⟨none, none, none⟩
    let total := q.total_reviews.getD 0
    if 0 < total then
      let pos := q.total_positive.getD 0
      some ⟨pyStrOr q.review_score_desc defDesc,
        some (round2 ((pos : ℚ) / (total : ℚ) * 100))⟩
    else none

/-- Embeds `enrich.fetch_review_summary`: recent window first, then
all-time, then the `"No reviews"` sentinel. -/
def fetch_review_summary
    (recentResp overallResp : Except Unit (Option QuerySummary)) : Review :=
  match reviewTry recentResp "Recent reviews" with
  | some r => r
  | none =>
    match reviewTry overallResp "Overall reviews" with
    | some r => r
    | none => ⟨"No reviews", none⟩

/-! Identity resolution (`input_parser.normalize_to_steamid64`).  Outbound
requests are recorded as `NetEvent`s; `throttled` is true exactly when the
call site routes through a `_THROTTLE.wait` wrapper (`http_get_store` /
`http_get_community` / `http_get_api` of `utils.py`) rather than a bare
`requests.get` / `session.get`. -/

/-- One outbound HTTP request issued by an embedded code path. -/
structure NetEvent where
  host : String
  throttled : Bool
  kind : String
deriving DecidableEq, Repr

/-- Python `str.isdigit()` (ASCII digits; the identifiers involved are
ASCII): true for a non-empty all-digit string. -/
def isDigitStr (s : String) : Bool :=
  !s.data.isEmpty && s.data.all Char.isDigit

/-- Python `str.strip()` on the ASCII whitespace class. -/
def pyStrip (s : String) : String :=
  String.mk (((s.data.dropWhile isSpaceCh).reverse.dropWhile isSpaceCh).reverse)

/-- Is `cs` a valid URL scheme (letter first, then letters, digits, `+`,
`-`, `.`), as `urllib.parse` requires before it splits a scheme off? -/
def validSchemeChars (cs : List Char) : Bool :=
  match cs with
  | [] => false
  | c :: rest =>
    c.isAlpha && rest.all (fun d => d.isAlpha || d.isDigit || d = '+' || d = '-' || d = '.')

/-- The `scheme`/`netloc`/`path` split of `urllib.parse.urlparse` for the
inputs this code distinguishes: a URL with a valid scheme followed by
`://`.  Every other input (no scheme, or no `//`) gets an empty netloc from
`urlparse`, so the community-host test below fails for it either way; those
inputs are folded into `none`. -/
def urlSplit (s : String) : Option (String × String × String) :=
  let schemeCs := s.data.takeWhile (fun c => c ≠ ':')
  match s.data.dropWhile (fun c => c ≠ ':') with
  | ':' :: '/' :: '/' :: r3 =>
    if validSchemeChars schemeCs then
      let netloc := r3.takeWhile (fun c => c ≠ '/' && c ≠ '?' && c ≠ '#')
      let afterN := r3.drop netloc.length
      let path := afterN.takeWhile (fun c => c ≠ '?' && c ≠ '#')
      some (String.mk schemeCs, String.mk netloc, String.mk path)
    else none
  | _ => none

/-- Does `needle` start `hay` (case-sensitive)? -/
def seqStarts : List Char → List Char → Bool
  | [], _ => true
  | _ :: _, [] => false
  | a :: as, b :: bs => a = b && seqStarts as bs

/-- Python's case-sensitive substring test `needle in hay`. -/
def containsSeq (needle : List Char) : List Char → Bool
  | [] => seqStarts needle []
  | c :: cs => seqStarts needle (c :: cs) || containsSeq needle cs

/-- Embeds `re.match(r"^/(id|profiles)/([^/]+)/?", path)`: the anchored
match succeeds only for the two recognised path shapes; the boolean is true
for the `/id/` shape, and the string is the (non-empty, slash-free) path
segment. -/
def pathMatch (path : String) : Option (Bool × String) :=
  match path.data with
  | '/' :: 'i' :: 'd' :: '/' :: rest =>
    let ident := rest.takeWhile (fun c => c ≠ '/')
    if ident.isEmpty then none else some (true, String.mk ident)
  | '/' :: 'p' :: 'r' :: 'o' :: 'f' :: 'i' :: 'l' :: 'e' :: 's' :: '/' :: rest =>
    let ident := rest.takeWhile (fun c => c ≠ '/')
    if ident.isEmpty then none else some (false, String.mk ident)
  | _ => none

/-- Embeds `input_parser.normalize_to_steamid64` as a function of the
vanity-lookup oracle (`some sid` when the profile XML request succeeds and
contains a `steamID64` node, `none` when the request fails or the node is
missing).  The XML request is issued with a bare `requests.get`, so its
event is unthrottled. -/
def normalize_to_steamid64 (vanityLookup : String → Option String)
    (val : String) : Option String × List NetEvent :=
  let s := pyStrip val
  if isDigitStr s then (some s, [])
  else
    match urlSplit s with
    | some (scheme, netloc, path) =>
      if scheme ≠ "" ∧ containsSeq "steamcommunity.com".data netloc.data then
        match pathMatch path with
        | none => (none, [])
        | some (isId, ident) =>
          if isId then
            (vanityLookup ident, [⟨"community", false, "vanity_profile_xml"⟩])
          else (if isDigitStr ident then some ident else none, [])
      else (none, [])
    | none => (none, [])

/-- A successful `urlSplit` never returns an empty scheme. -/
theorem urlSplit_scheme_ne (s sch nl p : String)
    (h : urlSplit s = some (sch, nl, p)) : sch ≠ "" := by
  simp only [urlSplit] at h
  split at h
  · split at h
    · rename_i hv
      injection h with h1
      obtain ⟨h2, _⟩ := Prod.mk.injEq .. ▸ Prod.mk.inj h1
      cases hcs : s.data.takeWhile (fun c => c ≠ ':') with
      | nil => rw [hcs] at hv; simp [validSchemeChars] at hv
      | cons c cs =>
        rw [hcs] at h2
        intro hc
        rw [hc] at h2
        have := congrArg String.data h2
        simp at this
    · cases h
  · cases h

/-- Claim C4 (counterexample): for the URL
`https://steamcommunity.com/id/12345/`, whose `/id/` segment is numeric,
identity resolution still issues the lookup request, and the request is a
bare `requests.get` that does not pass through the host throttle. -/
theorem claim_c4_counterexample :
    (normalize_to_steamid64 (fun _ => some "76561198000000001")
        "https://steamcommunity.com/id/12345/").2 =
      [⟨"community", false, "vanity_profile_xml"⟩] ∧
    isDigitStr "12345" = true := by
  exact ⟨rfl, rfl⟩

/-- Claim C4 (amended): identity resolution issues at most one network
request, and exactly one — a direct unthrottled community request — for
every community URL with an `/id/<segment>` path, numeric or not; a raw
digit string is returned as-is with no request; and resolution returns
absent, never an exception, when the URL matches neither recognised path
shape, when the `/profiles/` segment is non-numeric, or (in the `/id/`
case) when the lookup request fails or its response lacks the `steamID64`
field. -/
theorem claim_c4_only_id_requests (lookup : String → Option String)
    (val : String) :
    (∀ e ∈ (normalize_to_steamid64 lookup val).2,
      e.throttled = false ∧ e.host = "community") ∧
    (normalize_to_steamid64 lookup val).2.length ≤ 1 ∧
    (isDigitStr (pyStrip val) = true →
      normalize_to_steamid64 lookup val = (some (pyStrip val), [])) ∧
    (isDigitStr (pyStrip val) = false → urlSplit (pyStrip val) = none →
      normalize_to_steamid64 lookup val = (none, [])) ∧
    (∀ sch nl p, isDigitStr (pyStrip val) = false →
      urlSplit (pyStrip val) = some (sch, nl, p) →
      containsSeq "steamcommunity.com".data nl.data = true →
      pathMatch p = none →
      normalize_to_steamid64 lookup val = (none, [])) ∧
    (∀ sch nl p ident, isDigitStr (pyStrip val) = false →
      urlSplit (pyStrip val) = some (sch, nl, p) →
      containsSeq "steamcommunity.com".data nl.data = true →
      pathMatch p = some (true, ident) →
      normalize_to_steamid64 lookup val =
        (lookup ident, [⟨"community", false, "vanity_profile_xml"⟩])) ∧
    (∀ sch nl p ident, isDigitStr (pyStrip val) = false →
      urlSplit (pyStrip val) = some (sch, nl, p) →
      containsSeq "steamcommunity.com".data nl.data = true →
      pathMatch p = some (false, ident) →
      normalize_to_steamid64 lookup val =
        ((if isDigitStr ident then some ident else none), [])) := by
  have shape : (normalize_to_steamid64 lookup val).2 = [] ∨
      (normalize_to_steamid64 lookup val).2 =
        [⟨"community", false, "vanity_profile_xml"⟩] := by
    simp only [normalize_to_steamid64]
    split
    · left; rfl
    · split
      · split
        · split
          · left; rfl
          · split
            · right; rfl
            · left; rfl
        · left; rfl
      · left; rfl
  refine ⟨?_, ?_, ?_, ?_, ?_, ?_, ?_⟩
  · intro e he
    rcases shape with hs | hs <;> rw [hs] at he
    · cases he
    · rw [List.mem_singleton] at he
      subst he
      exact ⟨rfl, rfl⟩
  · rcases shape with hs | hs <;> simp [hs]
  · intro h
    unfold normalize_to_steamid64
    simp [h]
  · intro h1 h2
    unfold normalize_to_steamid64
    simp [h1, h2]
  · intro sch nl p h1 h2 h3 h4
    unfold normalize_to_steamid64
    simp [h1, h2, h3, h4, urlSplit_scheme_ne _ _ _ _ h2]
  · intro sch nl p ident h1 h2 h3 h4
    unfold normalize_to_steamid64
    simp [h1, h2, h3, h4, urlSplit_scheme_ne _ _ _ _ h2]
  · intro sch nl p ident h1 h2 h3 h4
    unfold normalize_to_steamid64
    simp [h1, h2, h3, h4, urlSplit_scheme_ne _ _ _ _ h2]

/-- Claim C4 (witness): a vanity URL whose lookup fails resolves to absent,
after exactly the one unthrottled community request. -/
theorem claim_c4_witness :
    normalize_to_steamid64 (fun _ => none)
        "https://steamcommunity.com/id/gabe/" =
      (none, [⟨"community", false, "vanity_profile_xml"⟩]) := by
  have h := claim_c4_only_id_requests (fun _ => none)
    "https://steamcommunity.com/id/gabe/"
  exact h.2.2.2.2.2.1 "https" "steamcommunity.com" "/id/gabe/" "gabe"
    rfl rfl rfl rfl

/-! Library fetch (`steam_family_agg_old/steam_fetch.py`, the module the
pipeline imports) and the aggregation pass of `pipeline.run_pipeline`. -/

/-- A Python value as it reaches `utils.parse_hours`: `None`, a number, or a
string. -/
inductive PyVal where
  | none : PyVal
  | num : ℚ → PyVal
  | str : String → PyVal

/-- Embeds Python `float(s)` for a stripped, comma-free string: optional
sign, digits with an optional fraction (at least one digit overall), and an
optional exponent.  (IEEE specials such as `nan`/`inf` and PEP-515
underscore separators are outside the rational embedding; no statement
below evaluates them.) -/
def parseFloat? (s : String) : Option ℚ :=
  let signed : Bool × List Char :=
    match s.data with
    | '+' :: r => (false, r)
    | '-' :: r => (true, r)
    | r => (false, r)
  let ipSplit := signed.2.span Char.isDigit
  let fracSplit : List Char × List Char :=
    match ipSplit.2 with
    | '.' :: r => r.span Char.isDigit
    | r => ([], r)
  if ipSplit.1.isEmpty ∧ fracSplit.1.isEmpty then none
  else
    let mant := ratOfDigits ipSplit.1 fracSplit.1
    let signedMant := if signed.1 then -mant else mant
    match fracSplit.2 with
    | [] => some signedMant
    | e :: r =>
      if e = 'e' ∨ e = 'E' then
        let esigned : Bool × List Char :=
          match r with
          | '+' :: r2 => (false, r2)
          | '-' :: r2 => (true, r2)
          | r2 => (false, r2)
        let edSplit := esigned.2.span Char.isDigit
        if edSplit.1.isEmpty ∨ ¬ edSplit.2.isEmpty then none
        else
          let p : ℚ := (10 : ℚ) ^ natOfDigits edSplit.1
          some (if esigned.1 then signedMant / p else signedMant * p)
      else none

/-- Embeds `utils.parse_hours`: `None` and blank strings give `0.0`,
numbers pass through, strings are stripped, have thousands separators
removed, and are parsed as floats with `0.0` on `ValueError`. -/
def parse_hours (val : PyVal) : ℚ :=
  match val with
  | .none => 0
  | .num q => q
  | .str s =>
    let s2 := String.mk ((pyStrip s).data.filter (fun c => c ≠ ','))
    if s2 = "" then 0 else (parseFloat? s2).getD 0

/-- One `<game>` node of the community XML feed: the text content (if any)
of the tags `fetch_games_xml` reads. -/
structure GameNode where
  appID : Option String
  appId : Option String
  appId64 : Option String
  name : Option String
  hoursOnRecord : Option String

/-- The `txt` helper of `fetch_games_xml`: stripped tag text, `""` when the
tag or its text is missing. -/
def txtField (f : Option String) : String := pyStrip (f.getD "")

/-- Python `a or b or c` on strings: the first non-empty one. -/
def pyStrOr3 (a b c : String) : String :=
  if a ≠ "" then a else if b ≠ "" then b else c

/-- One owned item as produced by the fetcher. -/
structure Game where
  appid : String
  name : String
  hours_on_record : ℚ
deriving Repr, DecidableEq

/-- Per-node extraction of `fetch_games_xml`: id from the first non-empty of
three known tag spellings, usage hours via `parse_hours`; nodes with a blank
id or name are dropped. -/
def parseNode (n : GameNode) : Option Game :=
  let appid := pyStrOr3 (txtField n.appID) (txtField n.appId) (txtField n.appId64)
  let name := txtField n.name
  let hours := parse_hours (.str (txtField n.hoursOnRecord))
  if appid ≠ "" ∧ name ≠ "" then some ⟨appid, name, hours⟩ else none

/-- The game list `fetch_games_xml` parses from the selected XML nodes. -/
def parseGamesXml (nodes : List GameNode) : List Game :=
  nodes.filterMap parseNode

/-- Embeds `fetch_games_xml` as a function of the XML response: a failed
request or unparseable document is an error (which the caller turns into an
empty list); otherwise the per-node extraction runs. -/
def fetch_games_xml (resp : Except Unit (List GameNode)) :
    Except Unit (List Game) :=
  resp.map parseGamesXml

/-- Embeds `get_owned_games_for_steamid` as a function of the two upstream
responses.  The embedded-page fetch (`fetch_games_html_rg`, whose
`rgGames`-blob extraction no claim touches) is abstracted as its parsed
result `htmlResp`; its network request is still recorded.  Both requests go
out with a bare `session.get`, hence unthrottled events. -/
def get_owned_games_for_steamid (xmlResp : Except Unit (List GameNode))
    (htmlResp : Except Unit (List Game)) : List Game × List NetEvent :=
  let games := match fetch_games_xml xmlResp with
    | .ok gs => gs
    | .error _ => []
  if games.isEmpty then
    let games2 := match htmlResp with
      | .ok gs => gs
      | .error _ => []
    (games2, [⟨"community", false, "games_xml"⟩, ⟨"community", false, "games_html"⟩])
  else (games, [⟨"community", false, "games_xml"⟩])

/-- The item list the structured feed yields (empty on request failure). -/
def xmlYield (xmlResp : Except Unit (List GameNode)) : List Game :=
  match fetch_games_xml xmlResp with
  | .ok gs => gs
  | .error _ => []

/-- One entry of the pipeline's `combined` dict:
`{"name": str, "owners": set[str], "hours": float}` (the owner set is a
duplicate-free list; only its size and membership are ever consumed). -/
structure AggEntry where
  name : String
  owners : List String
  hours : ℚ
deriving Repr

/-- The `combined` dict, keyed by appid, in insertion order. -/
abbrev AggMap := List (String × AggEntry)

/-- Dict lookup. -/
def lookupA : AggMap → String → Option AggEntry
  | [], _ => none
  | (k, v) :: t, a => if k = a then some v else lookupA t a

/-- Dict assignment: replace in place, or append a new key at the end
(Python dicts preserve insertion order). -/
def mapSet : AggMap → String → AggEntry → AggMap
  | [], k, v => [(k, v)]
  | (k', v') :: t, k, v =>
    if k' = k then (k, v) :: t else (k', v') :: mapSet t k v

/-- `set.add`: append the element unless already present. -/
def setInsert (x : String) (l : List String) : List String :=
  if x ∈ l then l else l ++ [x]

/-- One iteration of the aggregation loop (pipeline lines 63–68): create the
entry with an empty owner set and zero hours if the id is new, add the
account to the owner set, add the usage hours to the running total. -/
def mergeGame (sid : String) (m : AggMap) (g : Game) : AggMap :=
  let base := (lookupA m g.appid).getD ⟨g.name, [], 0⟩
  mapSet m g.appid
    ⟨base.name, setInsert sid base.owners, base.hours + g.hours_on_record⟩

/-- Merging one account's game list into the shared map. -/
def mergeAccount (sid : String) (games : List Game) (m : AggMap) : AggMap :=
  games.foldl (mergeGame sid) m

/-- Total usage hours recorded for an appid (0 when absent). -/
def hoursAt (m : AggMap) (a : String) : ℚ :=
  ((lookupA m a).map AggEntry.hours).getD 0

/-- Owner set recorded for an appid (empty when absent). -/
def ownersAt (m : AggMap) (a : String) : List String :=
  ((lookupA m a).map AggEntry.owners).getD []

/-- The usage hours an account's game list contributes to one appid. -/
def sumHours (a : String) : List Game → ℚ
  | [] => 0
  | g :: gs => (if g.appid = a then g.hours_on_record else 0) + sumHours a gs

theorem lookupA_mapSet (m : AggMap) (k a : String) (v : AggEntry) :
    lookupA (mapSet m k v) a = if k = a then some v else lookupA m a := by
  induction m with
  | nil => simp [mapSet, lookupA]
  | cons hd t ih =>
    obtain ⟨k', v'⟩ := hd
    by_cases hk : k' = k
    · subst hk
      by_cases ha : k' = a <;> simp [mapSet, lookupA, ha]
    · by_cases ha : k' = a
      · subst ha
        have : ¬ k = k' := fun h => hk h.symm
        simp [mapSet, lookupA, hk, this]
      · simp [mapSet, lookupA, hk, ha, ih]

theorem hoursAt_mergeGame (sid : String) (m : AggMap) (g : Game) (a : String) :
    hoursAt (mergeGame sid m g) a =
      if g.appid = a then hoursAt m a + g.hours_on_record else hoursAt m a := by
  unfold mergeGame hoursAt
  rw [lookupA_mapSet]
  by_cases h : g.appid = a
  · subst h
    cases hlk : lookupA m g.appid <;> simp [hlk]
  · simp [h]

theorem ownersAt_mergeGame (sid : String) (m : AggMap) (g : Game) (a : String) :
    ownersAt (mergeGame sid m g) a =
      if g.appid = a then setInsert sid (ownersAt m a) else ownersAt m a := by
  unfold mergeGame ownersAt
  rw [lookupA_mapSet]
  by_cases h : g.appid = a
  · subst h
    cases hlk : lookupA m g.appid <;> simp [hlk]
  · simp [h]

theorem hoursAt_mergeAccount (sid : String) (gs : List Game) (m : AggMap)
    (a : String) :
    hoursAt (mergeAccount sid gs m) a = hoursAt m a + sumHours a gs := by
  induction gs generalizing m with
  | nil => simp [mergeAccount, sumHours]
  | cons g gs ih =>
    show hoursAt (mergeAccount sid gs (mergeGame sid m g)) a = _
    rw [ih, hoursAt_mergeGame, sumHours]
    by_cases h : g.appid = a
    · simp only [h, if_pos]
      ring
    · simp [h]

theorem mem_setInsert_self (x : String) (l : List String) :
    x ∈ setInsert x l := by
  by_cases h : x ∈ l <;> simp [setInsert, h]

theorem setInsert_mem_noop (x : String) (l : List String) (h : x ∈ l) :
    setInsert x l = l := by
  simp [setInsert, h]

theorem setInsert_idem (x : String) (l : List String) :
    setInsert x (setInsert x l) = setInsert x l :=
  setInsert_mem_noop x _ (mem_setInsert_self x l)

theorem ownersAt_mergeAccount (sid : String) (gs : List Game) (m : AggMap)
    (a : String) :
    ownersAt (mergeAccount sid gs m) a =
      if a ∈ gs.map Game.appid then setInsert sid (ownersAt m a)
      else ownersAt m a := by
  induction gs generalizing m with
  | nil => simp [mergeAccount]
  | cons g gs ih =>
    show ownersAt (mergeAccount sid gs (mergeGame sid m g)) a = _
    rw [ih, ownersAt_mergeGame]
    by_cases hg : g.appid = a
    · subst hg
      by_cases hmem : g.appid ∈ gs.map Game.appid <;>
        simp [hmem, setInsert_idem]
    · have : ¬ a = g.appid := fun h => hg h.symm
      by_cases hmem : a ∈ gs.map Game.appid <;>
        simp [hmem, hg, this]

theorem sumHours_nonneg (a : String) (gs : List Game)
    (h : ∀ g ∈ gs, 0 ≤ g.hours_on_record) : 0 ≤ sumHours a gs := by
  induction gs with
  | nil => simp [sumHours]
  | cons g gs ih =>
    have hg := h g (by simp)
    have hrest := ih (fun g' hg' => h g' (by simp [hg']))
    unfold sumHours
    by_cases hc : g.appid = a <;> simp [hc] <;> positivity

/-- The total-review count a reviews response reports (0 when the request
failed or the field is missing). -/
def totalOf (resp : Except Unit (Option QuerySummary)) : ℤ :=
  match resp with
  | .ok o => (o.getD ⟨none, none, none⟩).total_reviews.getD 0
  | .error _ => 0

/-- The positive-review count a reviews response reports. -/
def posOf (resp : Except Unit (Option QuerySummary)) : ℤ :=
  match resp with
  | .ok o => (o.getD ⟨none, none, none⟩).total_positive.getD 0
  | .error _ => 0

/-- A reviews query "produced a usable summary": it succeeded and reported a
positive total. -/
def goodQuery (resp : Except Unit (Option QuerySummary)) : Prop :=
  ∃ o, resp = .ok o ∧ 0 < (o.getD ⟨none, none, none⟩).total_reviews.getD 0

/-- The percent-positive a usable query yields:
`positive / total * 100` rounded to two decimals. -/
def pctOf (resp : Except Unit (Option QuerySummary)) : ℚ :=
  round2 ((posOf resp : ℚ) / (totalOf resp : ℚ) * 100)

unseal Rat.add Rat.mul Rat.inv in
/-- Claim C2 (counterexample): the spec expects the size phrase `0.01 TB`
to normalise to `10.0` GB, but the parser — following its own TB rule of
multiplying by 1024 — returns `10.24` GB (`256/25`), which differs from
`10.0` already at two decimals. -/
theorem claim_c2_counterexample :
    parse_storage_requirement_gb_from_html "Storage: 0.01 TB" = some (256 / 25) ∧
      (256 / 25 : ℚ) ≠ 10 := by
  constructor
  · decide
  · decide

unseal Rat.add Rat.mul Rat.inv in
/-- Claim C2 (amended): `10240 MB` and `10 GB` both normalise to `10.0` GB
(MB divided by 1024, GB unchanged), while `0.01 TB` normalises to `10.24` GB
(TB multiplied by 1024), all rounded to two decimals. -/
theorem claim_c2_amended :
    parse_storage_requirement_gb_from_html "Storage: 10240 MB" = some 10 ∧
      parse_storage_requirement_gb_from_html "Storage: 10 GB" = some 10 ∧
      parse_storage_requirement_gb_from_html "Storage: 0.01 TB" = some (256 / 25) := by
  refine ⟨by decide, by decide, by decide⟩

/-- A left fold of `max` stays in the list it folds over. -/
theorem foldl_max_mem (xs : List ℚ) (x : ℚ) : xs.foldl max x ∈ x :: xs := by
  induction xs generalizing x with
  | nil => simp
  | cons y ys ih =>
    have h := ih (max x y)
    simp only [List.foldl_cons]
    rcases List.mem_cons.mp h with h1 | h1
    · rcases max_choice x y with hm | hm
      · exact List.mem_cons.mpr (Or.inl (h1.trans hm))
      · exact List.mem_cons.mpr
          (Or.inr (List.mem_cons.mpr (Or.inl (h1.trans hm))))
    · exact List.mem_cons.mpr (Or.inr (List.mem_cons.mpr (Or.inr h1)))

/-- Everything in the list is bounded by the left fold of `max`. -/
theorem le_foldl_max (xs : List ℚ) (x : ℚ) : ∀ u ∈ x :: xs, u ≤ xs.foldl max x := by
  induction xs generalizing x with
  | nil => intro u hu; simp at hu; simp [hu]
  | cons y ys ih =>
    intro u hu
    simp only [List.mem_cons] at hu
    have hx : x ≤ max x y := le_max_left x y
    have hy : y ≤ max x y := le_max_right x y
    have hstep := ih (max x y)
    rcases hu with rfl | rfl | hu
    · exact le_trans hx (hstep _ (by simp))
    · exact le_trans hy (hstep _ (by simp))
    · exact hstep u (by simp [hu])

/-- `List.max?` returns a member that bounds the whole list. -/
theorem max?_spec (xs : List ℚ) (v : ℚ) (h : xs.max? = some v) :
    v ∈ xs ∧ ∀ u ∈ xs, u ≤ v := by
  cases xs with
  | nil => simp [List.max?] at h
  | cons x ys =>
    have hx : (x :: ys).max? = some (ys.foldl max x) := rfl
    rw [hx] at h
    cases h
    exact ⟨foldl_max_mem ys x, le_foldl_max ys x⟩

unseal Rat.add Rat.mul Rat.inv in
/-- Claim C3 (counterexample): with a `minimum` block parsing to 5 GB and a
`recommended` block parsing to 20 GB, the structured step keeps 5 GB (the
first truthy parse), not the larger 20 GB the spec describes. -/
theorem claim_c3_counterexample :
    (metaStep1 (.ok (some ⟨true, some ⟨some "game", none,
        some ⟨some "Storage: 5 GB", some "Storage: 20 GB"⟩⟩⟩))).size_gb =
      some 5 ∧
    specLargerOfBlocks "Storage: 5 GB" "Storage: 20 GB" = some 20 ∧
    (5 : ℚ) ≠ 20 := by
  refine ⟨by decide, by decide, by decide⟩

/-- Claim C3 (amended): the install size is taken from the `minimum` block's
parse whenever that parse yields a nonzero value, and only otherwise from
the `recommended` block (`parse(mn) or parse(rc)`); within one block the
parser does return the maximum of all size phrases found. -/
theorem claim_c3_min_block_first :
    (∀ html v, parse_storage_requirement_gb_from_html html = some v →
      v ∈ storageVals html ∧ ∀ u ∈ storageVals html, u ≤ v) ∧
    (∀ mn rc v, parse_storage_requirement_gb_from_html mn = some v → v ≠ 0 →
      pyOrQ (parse_storage_requirement_gb_from_html mn)
        (parse_storage_requirement_gb_from_html rc) = some v) ∧
    (∀ mn rc, (parse_storage_requirement_gb_from_html mn = none ∨
        parse_storage_requirement_gb_from_html mn = some 0) →
      pyOrQ (parse_storage_requirement_gb_from_html mn)
        (parse_storage_requirement_gb_from_html rc) =
        parse_storage_requirement_gb_from_html rc) ∧
    (∀ (e : AppDetailsEntry) (d : AppData) (pc : PcReqs),
      e.success = true → e.data = some d → d.pc_requirements = some pc →
      (metaStep1 (.ok (some e))).size_gb =
        pyOrQ (parse_storage_requirement_gb_from_html (pc.minimum.getD ""))
          (parse_storage_requirement_gb_from_html (pc.recommended.getD ""))) := by
  refine ⟨?_, ?_, ?_, ?_⟩
  · intro html v h
    exact max?_spec _ _ h
  · intro mn rc v h hv
    simp [pyOrQ, h, hv]
  · intro mn rc h
    rcases h with h | h <;> simp [pyOrQ, h]
  · intro e d pc hs hd hpc
    cases e with
    | mk success data =>
      cases hd
      simp only at hs
      subst hs
      simp [metaStep1, hpc]

unseal Rat.add Rat.mul Rat.inv in
/-- Claim C3 (witness for the amended theorem): instantiating the
minimum-block-first clause on the counterexample inputs. -/
theorem claim_c3_witness :
    pyOrQ (parse_storage_requirement_gb_from_html "Storage: 5 GB")
      (parse_storage_requirement_gb_from_html "Storage: 20 GB") = some 5 := by
  exact claim_c3_min_block_first.2.1 "Storage: 5 GB" "Storage: 20 GB" 5
    (by decide) (by decide)

/-- Claim C8: a field resolved by the structured `appdetails` step survives
the HTML-fallback step untouched — the fallback writes only to fields that
are still `None`, whatever the store page contains. -/
theorem claim_c8_first_writer_wins
    (dresp : Except Unit (Option AppDetailsEntry))
    (storeResp : Except Unit String) (nsf ca : Bool) :
    (∀ t, (metaStep1 dresp).app_type = some t →
      (fetch_app_meta dresp storeResp nsf ca).app_type = some t) ∧
    (∀ y, (metaStep1 dresp).release_year = some y →
      (fetch_app_meta dresp storeResp nsf ca).release_year = some y) ∧
    (∀ v, (metaStep1 dresp).size_gb = some v →
      (htmlFallback (metaStep1 dresp) storeResp nsf ca).size_gb = some v) := by
  generalize hm : metaStep1 dresp = m
  have hf : ∀ t, m.app_type = some t →
      (htmlFallback m storeResp nsf ca).app_type = some t := by
    intro t h
    unfold htmlFallback
    split
    · cases storeResp with
      | error e => simpa using h
      | ok html => simp [h]
    · simp [h]
  have hy : ∀ y, m.release_year = some y →
      (htmlFallback m storeResp nsf ca).release_year = some y := by
    intro y h
    unfold htmlFallback
    split
    · cases storeResp with
      | error e => simpa using h
      | ok html => simp [h]
    · simp [h]
  have hv : ∀ v, m.size_gb = some v →
      (htmlFallback m storeResp nsf ca).size_gb = some v := by
    intro v h
    unfold htmlFallback
    split
    · cases storeResp with
      | error e => simpa using h
      | ok html => simp [h]
    · simp [h]
  refine ⟨?_, ?_, hv⟩
  · intro t h
    simp only [fetch_app_meta, hm, packageMeta]
    exact hf t h
  · intro y h
    simp only [fetch_app_meta, hm, packageMeta]
    exact hy y h

/-- Claim C8 (witness): a response resolving type, year and size, followed
by a store page that contains different values for all three, keeps the
structured values. -/
theorem claim_c8_witness :
    (fetch_app_meta
      (.ok (some ⟨true, some ⟨some "game", some ⟨some false, some "12 Mar, 2019"⟩,
        some ⟨some "Storage: 5 GB", none⟩⟩⟩))
      (.ok "<div class=\"release_date\"><div class=\"date\">1 Jan, 1999</div></div> Downloadable Content")
      true true).app_type = some "game" ∧
    (fetch_app_meta
      (.ok (some ⟨true, some ⟨some "game", some ⟨some false, some "12 Mar, 2019"⟩,
        some ⟨some "Storage: 5 GB", none⟩⟩⟩))
      (.ok "<div class=\"release_date\"><div class=\"date\">1 Jan, 1999</div></div> Downloadable Content")
      true true).release_year = some 2019 := by
  have h := claim_c8_first_writer_wins
    (.ok (some ⟨true, some ⟨some "game", some ⟨some false, some "12 Mar, 2019"⟩,
      some ⟨some "Storage: 5 GB", none⟩⟩⟩))
    (.ok "<div class=\"release_date\"><div class=\"date\">1 Jan, 1999</div></div> Downloadable Content")
    true true
  exact ⟨h.1 "game" (by decide), h.2.1 2019 (by decide)⟩

/-- Claim C9: review resolution tries the recent-window query first, falls
back to the all-time query when the recent one fails or reports zero total,
returns the `"No reviews"` sentinel with absent percent when both are
unusable, and any returned percent is `positive / total * 100` rounded to
two decimals for a query whose total was positive. -/
theorem claim_c9_review_fallback
    (recentResp overallResp : Except Unit (Option QuerySummary)) :
    (¬ goodQuery recentResp → ¬ goodQuery overallResp →
      fetch_review_summary recentResp overallResp = ⟨"No reviews", none⟩) ∧
    (goodQuery recentResp →
      (fetch_review_summary recentResp overallResp).recent_percent_positive =
        some (pctOf recentResp) ∧ 0 < totalOf recentResp) ∧
    (¬ goodQuery recentResp → goodQuery overallResp →
      (fetch_review_summary recentResp overallResp).recent_percent_positive =
        some (pctOf overallResp) ∧ 0 < totalOf overallResp) ∧
    (∀ p, (fetch_review_summary recentResp overallResp).recent_percent_positive =
        some p →
      (goodQuery recentResp ∧ p = pctOf recentResp) ∨
      (¬ goodQuery recentResp ∧ goodQuery overallResp ∧ p = pctOf overallResp)) := by
  have key : ∀ (r : Except Unit (Option QuerySummary)) (d : String),
      (goodQuery r → reviewTry r d =
        some ⟨pyStrOr (match r with
          | .ok o => (o.getD ⟨none, none, none⟩).review_score_desc
          | .error _ => none) d, some (pctOf r)⟩) ∧
      (¬ goodQuery r → reviewTry r d = none) := by
    intro r d
    constructor
    · rintro ⟨o, rfl, hpos⟩
      simp [reviewTry, hpos, pctOf, posOf, totalOf]
    · intro hbad
      cases r with
      | error e => simp [reviewTry]
      | ok o =>
        have : ¬ 0 < (o.getD ⟨none, none, none⟩).total_reviews.getD 0 := by
          intro hpos; exact hbad ⟨o, rfl, hpos⟩
        simp [reviewTry, this]
  refine ⟨?_, ?_, ?_, ?_⟩
  · intro h1 h2
    simp [fetch_review_summary, (key recentResp "Recent reviews").2 h1,
      (key overallResp "Overall reviews").2 h2]
  · intro h1
    obtain ⟨o, rfl, hpos⟩ := h1
    refine ⟨?_, hpos⟩
    simp [fetch_review_summary,
      (key (.ok o) "Recent reviews").1 ⟨o, rfl, hpos⟩]
  · intro h1 h2
    obtain ⟨o, rfl, hpos⟩ := h2
    refine ⟨?_, hpos⟩
    simp [fetch_review_summary, (key recentResp "Recent reviews").2 h1,
      (key (.ok o) "Overall reviews").1 ⟨o, rfl, hpos⟩]
  · intro p hp
    by_cases hr : goodQuery recentResp
    · left
      refine ⟨hr, ?_⟩
      obtain ⟨o, rfl, hpos⟩ := hr
      rw [fetch_review_summary, (key (.ok o) "Recent reviews").1 ⟨o, rfl, hpos⟩] at hp
      simp at hp
      exact hp.symm
    · by_cases ho : goodQuery overallResp
      · right
        refine ⟨hr, ho, ?_⟩
        obtain ⟨o, rfl, hpos⟩ := ho
        rw [fetch_review_summary, (key recentResp "Recent reviews").2 hr,
          (key (.ok o) "Overall reviews").1 ⟨o, rfl, hpos⟩] at hp
        simp at hp
        exact hp.symm
      · rw [fetch_review_summary, (key recentResp "Recent reviews").2 hr,
          (key overallResp "Overall reviews").2 ho] at hp
        simp at hp

/-- Claim C9 (witness): a failed recent query and an all-time query with 1
positive of 3 total reviews produce the all-time percentage. -/
theorem claim_c9_witness :
    (fetch_review_summary (.error ())
        (.ok (some ⟨some 3, some 1, none⟩))).recent_percent_positive =
      some (pctOf (.ok (some ⟨some 3, some 1, none⟩))) ∧
    0 < totalOf (.ok (some ⟨some 3, some 1, (none : Option String)⟩)) := by
  exact (claim_c9_review_fallback (.error ())
      (.ok (some ⟨some 3, some 1, none⟩))).2.2.1
    (by rintro ⟨o, h, _⟩; cases h) ⟨some ⟨some 3, some 1, none⟩, rfl, by decide⟩

/-- Claim C10: a parsed install size of exactly `0.0` GB is reported as
absent by the final truthiness test (`round(size_gb, 2) if size_gb else
None`), and an empty-string `type` from the structured endpoint maps to an
absent kind through the same truthiness idiom (`... or None`). -/
theorem claim_c10_zero_size_absent
    (dresp : Except Unit (Option AppDetailsEntry))
    (storeResp : Except Unit String) (nsf ca : Bool) :
    ((htmlFallback (metaStep1 dresp) storeResp nsf ca).size_gb = some 0 →
      (fetch_app_meta dresp storeResp nsf ca).approx_install_size_gb = none) ∧
    (∀ (e : AppDetailsEntry) (d : AppData), e.data = some d → d.type = some "" →
      (metaStep1 (.ok (some e))).app_type = none) := by
  constructor
  · intro h
    simp [fetch_app_meta, packageMeta, h]
  · intro e d hd ht
    cases e with
    | mk success data =>
      cases hd
      cases success with
      | false => simp [metaStep1]
      | true =>
        have hl : strLower "" = "" := rfl
        simp [metaStep1, ht, pyStrOrNone, hl]

unseal Rat.add Rat.mul Rat.inv in
/-- Claim C10 (witness): a structured response whose only size phrase is
`0 GB` and whose `type` is the empty string yields an absent install size
and an absent kind (before the fallback default applies). -/
theorem claim_c10_witness :
    (fetch_app_meta
      (.ok (some ⟨true, some ⟨some "", none, some ⟨none, some "Storage: 0 GB"⟩⟩⟩))
      (.error ()) true true).approx_install_size_gb = none ∧
    (metaStep1
      (.ok (some ⟨true, some ⟨some "", none,
        some ⟨none, some "Storage: 0 GB"⟩⟩⟩))).app_type = none := by
  have h := claim_c10_zero_size_absent
    (.ok (some ⟨true, some ⟨some "", none, some ⟨none, some "Storage: 0 GB"⟩⟩⟩))
    (.error ()) true true
  exact ⟨h.1 (by decide), h.2 _ _ rfl rfl⟩


unseal Rat.add Rat.mul Rat.inv in
/-- Claim C5 (counterexample): the per-account usage contribution is not
always nonnegative — a source `hoursOnRecord` text of `"-1"` parses to
`-1.0`, and aggregating it drives the running total negative. -/
theorem claim_c5_counterexample :
    parse_hours (.str "-1") = -1 ∧ (-1 : ℚ) < 0 ∧
    hoursAt (mergeAccount "sid"
      (parseGamesXml [⟨some "10", none, none, some "Foo", some "-1"⟩]) [])
      "10" = -1 := by
  refine ⟨by decide, by decide, by decide⟩

unseal Rat.add Rat.mul Rat.inv in
/-- Claim C5 (amended): missing, blank and thousands-separated usage values
parse to nonnegative floats (`0.0`, `0.0`, the separated value), and the
running total never decreases during aggregation provided every parsed
contribution is nonnegative — which the code does not enforce: an
explicitly negative source value passes through `parse_hours` unchanged. -/
theorem claim_c5_nonneg_contributions :
    parse_hours .none = 0 ∧
    parse_hours (.str "") = 0 ∧
    parse_hours (.str "1,234.5") = 12345 / 10 ∧
    (∀ (m : AggMap) (sid : String) (gs : List Game) (a : String),
      (∀ g ∈ gs, 0 ≤ g.hours_on_record) →
      hoursAt m a ≤ hoursAt (mergeAccount sid gs m) a) := by
  refine ⟨by decide, by decide, by decide, ?_⟩
  intro m sid gs a h
  rw [hoursAt_mergeAccount]
  have := sumHours_nonneg a gs h
  linarith

/-- Claim C5 (witness): the monotonicity clause applied to one nonnegative
contribution on the empty map. -/
theorem claim_c5_witness :
    hoursAt ([] : AggMap) "10" ≤
      hoursAt (mergeAccount "sid" [⟨"10", "Foo", 3⟩] []) "10" := by
  exact claim_c5_nonneg_contributions.2.2.2 [] "sid" [⟨"10", "Foo", 3⟩] "10"
    (by intro g hg; rw [List.mem_singleton] at hg; subst hg; decide)

/-- Claim C6: an item owned by exactly two distinct accounts, contributing
`h1` and `h2` usage hours, aggregates to an owner set of size 2 and a total
of `h1 + h2` (exactly, in the rational model); and re-adding an account that
already owns an item never grows the owner set. -/
theorem claim_c6_two_owner_sum :
    (∀ (sid1 sid2 : String) (l1 l2 : List Game) (appid : String) (h1 h2 : ℚ),
      sid1 ≠ sid2 →
      appid ∈ l1.map Game.appid → appid ∈ l2.map Game.appid →
      sumHours appid l1 = h1 → sumHours appid l2 = h2 →
      hoursAt (mergeAccount sid2 l2 (mergeAccount sid1 l1 [])) appid =
          h1 + h2 ∧
        (ownersAt (mergeAccount sid2 l2 (mergeAccount sid1 l1 []))
          appid).length = 2) ∧
    (∀ (sid : String) (m : AggMap) (gs : List Game) (a : String),
      sid ∈ ownersAt m a →
      (ownersAt (mergeAccount sid gs m) a).length = (ownersAt m a).length) := by
  constructor
  · intro sid1 sid2 l1 l2 appid h1 h2 hne hm1 hm2 hs1 hs2
    constructor
    · rw [hoursAt_mergeAccount, hoursAt_mergeAccount]
      show hoursAt [] appid + sumHours appid l1 + sumHours appid l2 = h1 + h2
      rw [hs1, hs2]
      show 0 + h1 + h2 = h1 + h2
      ring
    · rw [ownersAt_mergeAccount, ownersAt_mergeAccount]
      simp only [hm1, hm2, if_pos]
      show (setInsert sid2 (setInsert sid1 (ownersAt [] appid))).length = 2
      have h0 : ownersAt [] appid = [] := rfl
      rw [h0]
      have h1i : setInsert sid1 [] = [sid1] := rfl
      rw [h1i]
      have h2i : setInsert sid2 [sid1] = [sid1, sid2] := by
        simp [setInsert, hne.symm]
      rw [h2i]
      rfl
  · intro sid m gs a hmem
    rw [ownersAt_mergeAccount]
    by_cases h : a ∈ gs.map Game.appid
    · rw [if_pos h, setInsert_mem_noop sid _ hmem]
    · rw [if_neg h]

unseal Rat.add Rat.mul Rat.inv in
/-- Claim C6 (witness): accounts `a` (3 hours) and `b` (2 hours) for item
`10` aggregate to 2 owners and 5 hours. -/
theorem claim_c6_witness :
    hoursAt (mergeAccount "b" [⟨"10", "Foo", 2⟩]
        (mergeAccount "a" [⟨"10", "Foo", 3⟩] [])) "10" = 3 + 2 ∧
    (ownersAt (mergeAccount "b" [⟨"10", "Foo", 2⟩]
        (mergeAccount "a" [⟨"10", "Foo", 3⟩] [])) "10").length = 2 := by
  exact claim_c6_two_owner_sum.1 "a" "b" [⟨"10", "Foo", 3⟩] [⟨"10", "Foo", 2⟩]
    "10" 3 2 (by decide) (by decide) (by decide) (by decide) (by decide)

/-- Claim C7: the fetcher issues exactly one follow-up request to the
embedded-page source precisely when the structured feed yields zero items
(request failure or empty parse); a non-empty structured yield issues no
follow-up. -/
theorem claim_c7_fallback_activation (xmlResp : Except Unit (List GameNode))
    (htmlResp : Except Unit (List Game)) :
    (xmlYield xmlResp = [] →
      ((get_owned_games_for_steamid xmlResp htmlResp).2.filter
        (fun e => e.kind = "games_html")).length = 1) ∧
    (xmlYield xmlResp ≠ [] →
      ((get_owned_games_for_steamid xmlResp htmlResp).2.filter
        (fun e => e.kind = "games_html")).length = 0) := by
  constructor
  · intro h
    unfold get_owned_games_for_steamid
    unfold xmlYield at h
    simp only [h]
    rfl
  · intro h
    unfold get_owned_games_for_steamid
    unfold xmlYield at h
    rw [if_neg (by simpa [List.isEmpty_iff] using h)]
    rfl

/-- Claim C7 (witness): an empty structured feed triggers exactly one
embedded-page request. -/
theorem claim_c7_witness :
    ((get_owned_games_for_steamid (.ok []) (.ok [])).2.filter
      (fun e => e.kind = "games_html")).length = 1 := by
  exact (claim_c7_fallback_activation (.ok []) (.ok [])).1 rfl


/-! The pipeline orchestrator (`pipeline.run_pipeline`).  Wall-clock
timings, logging, and the CSV write are I/O and are omitted; the thread
pools of stages 2 and 3 are deterministic per-item maps (results are keyed
by appid, so completion order is immaterial), and their upstream responses
come from the `PipeWorld` oracles.  `fetch_last_update_year` is embedded at
its result level (`lastUpdate`): no claim depends on the news-feed keyword
scan inside it. -/

/-- One parsed line of the ids file. -/
structure Entry where
  label : String
  steamid64 : String

/-- The configuration fields `run_pipeline` branches on. -/
structure Config where
  include_reviews : Bool
  include_release_size : Bool
  include_last_update : Bool

/-- All upstream responses one pipeline run can observe, per account or per
appid. -/
structure PipeWorld where
  xmlNodes : String → Except Unit (List GameNode)
  htmlGames : String → Except Unit (List Game)
  details : String → Except Unit (Option AppDetailsEntry)
  store : String → Except Unit String
  recent : String → Except Unit (Option QuerySummary)
  overall : String → Except Unit (Option QuerySummary)
  lastUpdate : String → Option ℕ

/-- A Python runtime error the pipeline can raise. -/
inductive PyError where
  | systemExit (msg : String)
  | unboundLocal (var : String)
  | typeError (msg : String)
deriving DecidableEq, Repr

/-- One output row of the pipeline. -/
structure Row where
  appid : String
  name : String
  owners : ℕ
  combined_hours_on_record : ℚ
  review_summary : Option String
  recent_percent_positive : Option ℚ
  release_year : Option ℕ
  last_update_year : Option ℕ
  approx_install_size_gb : Option ℚ

/-- The `Results` dataclass of `models.py` (its `out_path`, `timings` and
`coverage` fields are I/O and wall-clock bookkeeping, omitted here).  Note
that `type_counts` and `excluded_items` are required fields with no
default. -/
structure Results where
  rows : List Row
  type_counts : List (String × ℕ)
  included_games : ℕ
  excluded_items : ℕ
  failed_accounts : List String
  ok_accounts : ℕ
  total_accounts : ℕ

/-- State of the sequential library-fetch loop (stage 1). -/
structure FetchState where
  combined : AggMap
  ok_count : ℕ
  failed : List String

/-- Stage 1 of `run_pipeline` (lines 49–71): fetch each account in turn; an
empty result records the account as failed, a non-empty one is merged into
`combined`. -/
def fetchStage (w : PipeWorld) : List Entry → FetchState → FetchState
  | [], st => st
  | e :: es, st =>
    let games := (get_owned_games_for_steamid (w.xmlNodes e.steamid64)
      (w.htmlGames e.steamid64)).1
    if games.isEmpty then
      fetchStage w es ⟨st.combined, st.ok_count,
        st.failed ++ [e.label ++ " (" ++ e.steamid64 ++
          ") — No games visible (check Game details privacy = Public)"]⟩
    else
      fetchStage w es ⟨mergeAccount e.steamid64 games st.combined,
        st.ok_count + 1, st.failed⟩

/-- The row-building loop of `run_pipeline` (lines 156–173) with Python
local-variable semantics for `excluded_delisted`: the counter is a local
that is **never initialised** — the `+= 1` on a delisted item must read it
first and raises `UnboundLocalError` when it is still unbound. -/
def rowsLoop (cfg : Config) (combined : AggMap) (metaOf : String → MetaDict)
    (reviewOf : String → Review) (lastOf : String → Option ℕ) :
    List String → List Row → Option ℕ → Except PyError (List Row × Option ℕ)
  | [], rows, excl => .ok (rows, excl)
  | a :: as, rows, excl =>
    if (metaOf a).delisted = some true then
      match excl with
      | none => .error (.unboundLocal "excluded_delisted")
      | some n => rowsLoop cfg combined metaOf reviewOf lastOf as rows (some (n + 1))
    else
      let info := (lookupA combined a).getD ⟨"", [], 0⟩
      let row : Row := {
        appid := a
        name := info.name
        owners := info.owners.length
        combined_hours_on_record := round2 info.hours
        review_summary :=
          if cfg.include_reviews then some (reviewOf a).review_summary else none
        recent_percent_positive :=
          if cfg.include_reviews then (reviewOf a).recent_percent_positive else none
        release_year :=
          if cfg.include_release_size then (metaOf a).release_year else none
        last_update_year :=
          if cfg.include_last_update then lastOf a else none
        approx_install_size_gb :=
          if cfg.include_release_size then (metaOf a).approx_install_size_gb
          else none }
      rowsLoop cfg combined metaOf reviewOf lastOf as (rows ++ [row]) excl

/-- Embeds `pipeline.run_pipeline`.  After the row loop, the
`Excluded delisted` log line reads `excluded_delisted` (raising
`UnboundLocalError` while the local is unbound), and the final
`Results(...)` call omits the dataclass's required `type_counts` and
`excluded_items` arguments, which would raise `TypeError`. -/
def run_pipeline (cfg : Config) (entries : List Entry) (w : PipeWorld) :
    Except PyError Results :=
  if entries.isEmpty then
    .error (.systemExit
      "No valid lines found. Expected Username: SteamID64 or a profile URL.")
  else
    let st := fetchStage w entries ⟨[], 0, []⟩
    if st.combined.isEmpty then
      .error (.systemExit "No games found across provided accounts.")
    else
      let targets := st.combined.map Prod.fst
      let metaOf := fun a =>
        fetch_app_meta (w.details a) (w.store a) cfg.include_release_size true
      let reviewOf := fun a =>
        if cfg.include_reviews then fetch_review_summary (w.recent a) (w.overall a)
        else ⟨"No reviews", none⟩
      let lastOf := fun a =>
        if cfg.include_last_update then w.lastUpdate a else none
      match rowsLoop cfg st.combined metaOf reviewOf lastOf targets [] none with
      | .error e => .error e
      | .ok (_, none) => .error (.unboundLocal "excluded_delisted")
      | .ok (_, some _) =>
        .error (.typeError
          "Results() missing required arguments: type_counts, excluded_items")

theorem mapSet_ne_nil (m : AggMap) (k : String) (v : AggEntry) :
    mapSet m k v ≠ [] := by
  cases m with
  | nil => simp [mapSet]
  | cons hd t =>
    obtain ⟨k2, v2⟩ := hd
    unfold mapSet
    split <;> simp

theorem mergeGame_ne_nil (sid : String) (m : AggMap) (g : Game) :
    mergeGame sid m g ≠ [] := by
  simp only [mergeGame]
  exact mapSet_ne_nil _ _ _

theorem mergeAccount_ne_nil (sid : String) (gs : List Game) (m : AggMap)
    (h : m ≠ [] ∨ gs ≠ []) : mergeAccount sid gs m ≠ [] := by
  induction gs generalizing m with
  | nil =>
    rcases h with h | h
    · exact h
    · exact absurd rfl h
  | cons g gs ih =>
    show mergeAccount sid gs (mergeGame sid m g) ≠ []
    exact ih (mergeGame sid m g) (Or.inl (mergeGame_ne_nil sid m g))

theorem fetchStage_preserves_ne (w : PipeWorld) (es : List Entry)
    (st : FetchState) (h : st.combined ≠ []) :
    (fetchStage w es st).combined ≠ [] := by
  induction es generalizing st with
  | nil => exact h
  | cons e es ih =>
    simp only [fetchStage]
    split
    · exact ih _ h
    · exact ih _ (mergeAccount_ne_nil _ _ _ (Or.inl h))

theorem fetchStage_combined_ne (w : PipeWorld) (entries : List Entry)
    (st : FetchState)
    (h : ∃ e ∈ entries, (get_owned_games_for_steamid (w.xmlNodes e.steamid64)
      (w.htmlGames e.steamid64)).1 ≠ []) :
    (fetchStage w entries st).combined ≠ [] := by
  induction entries generalizing st with
  | nil => simp at h
  | cons e es ih =>
    obtain ⟨e0, he0, hg⟩ := h
    simp only [fetchStage]
    split
    · rename_i hempty
      rcases List.mem_cons.mp he0 with rfl | hmem
      · rw [List.isEmpty_iff] at hempty
        exact absurd hempty hg
      · exact ih _ ⟨e0, hmem, hg⟩
    · rename_i hnonempty
      apply fetchStage_preserves_ne
      apply mergeAccount_ne_nil
      right
      simpa [List.isEmpty_iff] using hnonempty

theorem rowsLoop_excl_none (cfg : Config) (combined : AggMap)
    (metaOf : String → MetaDict) (reviewOf : String → Review)
    (lastOf : String → Option ℕ) (ts : List String) (rows : List Row) :
    rowsLoop cfg combined metaOf reviewOf lastOf ts rows none =
        .error (.unboundLocal "excluded_delisted") ∨
      ∃ rs, rowsLoop cfg combined metaOf reviewOf lastOf ts rows none =
        .ok (rs, none) := by
  induction ts generalizing rows with
  | nil => exact Or.inr ⟨rows, rfl⟩
  | cons a as ih =>
    unfold rowsLoop
    split
    · exact Or.inl rfl
    · exact ih _

/-- Claim C1 (code bug): whenever at least one valid account line was
parsed and at least one item was aggregated (so neither fatal `SystemExit`
fires), `run_pipeline` does **not** return a `Results` value — it always
raises `UnboundLocalError` on `excluded_delisted`, a local that is read
(line 160 on a delisted item, line 175 in the log) but never initialised;
even with that fixed, the `Results(...)` call omits the dataclass's
required `type_counts` and `excluded_items` fields. -/
theorem claim_c1_pipeline_raises (cfg : Config) (entries : List Entry)
    (w : PipeWorld) (hne : entries ≠ [])
    (hgames : ∃ e ∈ entries,
      (get_owned_games_for_steamid (w.xmlNodes e.steamid64)
        (w.htmlGames e.steamid64)).1 ≠ []) :
    run_pipeline cfg entries w = .error (.unboundLocal "excluded_delisted") := by
  simp only [run_pipeline]
  rw [if_neg (by simpa [List.isEmpty_iff] using hne)]
  have hcomb := fetchStage_combined_ne w entries ⟨[], 0, []⟩ hgames
  rw [if_neg (by simpa [List.isEmpty_iff] using hcomb)]
  rcases rowsLoop_excl_none cfg (fetchStage w entries ⟨[], 0, []⟩).combined
      (fun a => fetch_app_meta (w.details a) (w.store a)
        cfg.include_release_size true)
      (fun a => if cfg.include_reviews then
        fetch_review_summary (w.recent a) (w.overall a) else ⟨"No reviews", none⟩)
      (fun a => if cfg.include_last_update then w.lastUpdate a else none)
      ((fetchStage w entries ⟨[], 0, []⟩).combined.map Prod.fst) []
    with herr | ⟨rs, hok⟩
  · rw [herr]
  · rw [hok]

unseal Rat.add Rat.mul Rat.inv in
/-- Claim C1 (witness): a single account whose structured feed lists one
game makes the pipeline raise `UnboundLocalError` instead of returning
`Results`. -/
theorem claim_c1_witness :
    run_pipeline ⟨false, false, false⟩ [⟨"A", "76561198000000001"⟩]
      ⟨fun _ => .ok [⟨some "10", none, none, some "Foo", some "1.5"⟩],
       fun _ => .error (), fun _ => .error (), fun _ => .error (),
       fun _ => .error (), fun _ => .error (), fun _ => none⟩ =
      .error (.unboundLocal "excluded_delisted") := by
  exact claim_c1_pipeline_raises ⟨false, false, false⟩
    [⟨"A", "76561198000000001"⟩]
    ⟨fun _ => .ok [⟨some "10", none, none, some "Foo", some "1.5"⟩],
     fun _ => .error (), fun _ => .error (), fun _ => .error (),
     fun _ => .error (), fun _ => .error (), fun _ => none⟩
    (by simp)
    ⟨⟨"A", "76561198000000001"⟩, by simp, by decide⟩

end SteamAgg
